import Mathlib

/-
Verification development for the Retrochat client-side crypto core.

The TypeScript sources are shallowly embedded: byte arrays become
`List Nat`, JavaScript strings become `String` (all payloads here are
ASCII), fallible code returns `Except String`, and the IndexedDB stores
become association lists of rows keyed by `id`.  External library
primitives (WebCrypto AES-GCM / HKDF / PBKDF2, noble SHA-256 and X25519,
viem address checksumming, zod datetime parsing, JSON
serialization) are not code of this repository; they enter the embedding
as explicit function parameters of the operations that call them.
Environment-availability guards (the `typeof crypto === 'undefined'`
checks) are elided: they model the absence of the platform, not program
logic.
-/

namespace Retrochat

/-- Byte strings are lists of naturals; every byte produced by the embedded
code is < 256 (Uint8Array semantics need no wrap-around here because no
arithmetic beyond hex parsing of two digits is performed). -/
abbrev Bytes := List Nat

/-! ## JavaScript string primitives (modelled on the character list) -/

/-- Value of one hex digit, `[0-9a-fA-F]`, as in `Number.parseInt(c, 16)`. -/
def hexDigitVal? (c : Char) : Option Nat :=
  if ('0' ≤ c ∧ c ≤ '9') then some (c.toNat - 48)
  else if ('a' ≤ c ∧ c ≤ 'f') then some (c.toNat - 87)
  else if ('A' ≤ c ∧ c ≤ 'F') then some (c.toNat - 55)
  else none

/-- Character class `[0-9a-fA-F]` used by the hex regexes in the sources. -/
def isHexDigitChar (c : Char) : Bool := (hexDigitVal? c).isSome

/-- Lower-case hex digit for a value < 16, as produced by
`b.toString(16)`. -/
def hexDigitChar (n : Nat) : Char :=
  if n < 10 then Char.ofNat (48 + n) else Char.ofNat (87 + (n - 10))

/-- Two-character lower-case hex rendering of one byte:
`b.toString(16).padStart(2, '0')` for `b < 256`. -/
def byteToHexChars (b : Nat) : List Char :=
  [hexDigitChar (b / 16 % 16), hexDigitChar (b % 16)]

/-- `toHex` as defined (identically) in `messagesRepo.ts`, `protocol.ts`
and `backup.ts`: map each byte to two padded hex digits and join. -/
def toHex (bs : Bytes) : String := ⟨(bs.map byteToHexChars).flatten⟩

/-- UTF-8 encoding of an ASCII string (`TextEncoder`/`utf8ToBytes`); every
string the core encodes (addresses, domain labels, hex, ISO timestamps)
is ASCII, where UTF-8 bytes coincide with code points. -/
def utf8ToBytes (s : String) : Bytes := s.data.map Char.toNat

/-- Lexicographic comparison of character lists by code point; this is the
comparison JavaScript's default `Array.prototype.sort` and the `<=`/`>=`
string operators use (code-unit order, identical on ASCII data). -/
def lexLe : List Char → List Char → Bool
  | [], _ => true
  | _ :: _, [] => false
  | a :: as, b :: bs =>
    if a.toNat < b.toNat then true
    else if b.toNat < a.toNat then false
    else lexLe as bs

/-- JavaScript `a <= b` on strings. -/
def strLeJs (a b : String) : Bool := lexLe a.data b.data

/-- JavaScript `String.prototype.trim` (whitespace stripped from both
ends). -/
def jsTrim (s : String) : String :=
  ⟨((s.data.dropWhile Char.isWhitespace).reverse.dropWhile Char.isWhitespace).reverse⟩

/-- JavaScript `String.prototype.toLowerCase` (per-character lowering; the
strings it is applied to in the core are ASCII addresses). -/
def jsToLower (s : String) : String := ⟨s.data.map Char.toLower⟩

/-- Strict hex decoding of a character list: fails on odd length or any
non-hex character, returns the byte list otherwise.  This is the
*specification-side* notion "the string is valid hex and decodes to these
bytes". -/
def hexDecodeList : List Char → Option Bytes
  | [] => some []
  | [_] => none
  | c1 :: c2 :: rest =>
    match hexDigitVal? c1, hexDigitVal? c2, hexDecodeList rest with
    | some hi, some lo, some bs => some ((16 * hi + lo) :: bs)
    | _, _, _ => none

/-- Strict hex decoding of a string. -/
def hexDecode (s : String) : Option Bytes := hexDecodeList s.data

/-- Lenient value of one hex pair as computed by `fromHex` in the backup
module via `Number.parseInt(hex.slice(i*2, i*2+2), 16)` stored into a
`Uint8Array`: a non-hex leading character yields `NaN`, coerced to `0`; a
non-hex second character stops parsing after the first digit.  (The
`parseInt` corner cases for leading sign/whitespace characters are not
modelled; no claim depends on them.) -/
def jsHexPairVal (c1 c2 : Char) : Nat :=
  match hexDigitVal? c1 with
  | none => 0
  | some hi =>
    match hexDigitVal? c2 with
    | none => hi
    | some lo => 16 * hi + lo

/-- Pairwise lenient hex decoding of an even-length character list. -/
def fromHexList : List Char → Bytes
  | c1 :: c2 :: rest => jsHexPairVal c1 c2 :: fromHexList rest
  | _ => []

/-- Error message thrown by `fromHex` on odd length. -/
def invalidHexLenMsg : String := "Invalid hex string length."

/-- The backup module's `fromHex`: throws only on odd length, otherwise
decodes pairs leniently (see `jsHexPairVal`). -/
def fromHex (hex : String) : Except String Bytes :=
  if hex.length % 2 ≠ 0 then .error invalidHexLenMsg
  else .ok (fromHexList hex.data)

/-! ## Order facts about the JavaScript string comparison -/

theorem lexLe_total : ∀ as bs : List Char, lexLe as bs = true ∨ lexLe bs as = true
  | [], _ => Or.inl rfl
  | _ :: _, [] => Or.inr rfl
  | a :: as, b :: bs => by
    by_cases h1 : a.toNat < b.toNat
    · left; simp [lexLe, h1]
    · by_cases h2 : b.toNat < a.toNat
      · right; simp [lexLe, h2]
      · rcases lexLe_total as bs with h | h
        · left; simp [lexLe, h1, h2, h]
        · right; simp [lexLe, h1, h2, h]

theorem lexLe_antisymm : ∀ as bs : List Char,
    lexLe as bs = true → lexLe bs as = true → as = bs
  | [], [], _, _ => rfl
  | [], _ :: _, _, h2 => by simp [lexLe] at h2
  | _ :: _, [], h1, _ => by simp [lexLe] at h1
  | a :: as, b :: bs, h1, h2 => by
    by_cases hab : a.toNat < b.toNat
    · simp [lexLe, hab, Nat.lt_asymm hab] at h2
    · by_cases hba : b.toNat < a.toNat
      · simp [lexLe, hab, hba] at h1
      · have hc : a = b :=
          Char.eq_of_val_eq (UInt32.ext (Nat.le_antisymm (Nat.not_lt.mp hba) (Nat.not_lt.mp hab)))
        simp [lexLe, hab, hba] at h1 h2
        rw [hc, lexLe_antisymm as bs h1 h2]

theorem strLeJs_total (a b : String) : strLeJs a b = true ∨ strLeJs b a = true :=
  lexLe_total a.data b.data

theorem strLeJs_antisymm (a b : String) (h1 : strLeJs a b = true)
    (h2 : strLeJs b a = true) : a = b := by
  cases a; cases b
  exact congrArg String.mk (lexLe_antisymm _ _ h1 h2)

/-! ## Conversation key derivation (`src/crypto/conversationKeys.ts`) -/

/-- Result of `deriveConversationKey`: the imported AES key is identified
with its raw 32-byte HKDF output (`crypto.subtle.importKey` of that
material), and `id` is the hex of its first 16 bytes. -/
structure ConversationKeySpec where
  key : Bytes
  id : String
deriving DecidableEq

/-- Fixed HKDF domain-separation salt `retrochat:conversation:salt:v1`. -/
def conversationSalt : Bytes := utf8ToBytes ("retrochat:conversation:salt:v1")

/-- Message of `validateKey` length failures. -/
def invalidKeyLenMsg (label : String) (got : Nat) : String :=
  ("Invalid ") ++ label ++ (": expected 32 bytes, got ") ++ toString got

/-- Message of the `validateAddress` whitespace-only failure. -/
def emptyAddrMsg (label : String) : String :=
  ("Invalid ") ++ label ++ (": address cannot be empty")

/-- Message of the `validateAddress` regex failure. -/
def badAddrMsg (label : String) : String :=
  ("Invalid ") ++ label ++ (": not a valid Ethereum address format")

/-- Prefix added when `deriveSharedSecret` rejects its inputs. -/
def keyDerivFailMsg (m : String) : String := ("Key derivation failed: ") ++ m

/-- Test of the regex `^0x[a-fA-F0-9]{40}$` used both by
`validateAddress` in `conversationKeys.ts` and by
`isValidEthereumAddress` in the vault-session provider. -/
def ethAddrTest (s : String) : Bool :=
  match s.data with
  | c0 :: c1 :: rest => c0 == '0' && c1 == 'x' && rest.length == 40 && rest.all isHexDigitChar
  | _ => false

/-- `[a, b].sort()` for two strings under JavaScript's default
comparator, returned as an ordered pair. -/
def jsSortPair (a b : String) : String × String :=
  if strLeJs a b then (a, b) else (b, a)

/-- `deriveConversationKey` from `src/crypto/conversationKeys.ts`.
`ecdh` stands for noble's `deriveSharedSecret` (errors are
`X25519ValidationError` messages) and `hkdf` for the WebCrypto
`hkdfSha256` of `kdf.ts` (ikm, salt, info, byte length).  `epoch : Nat`
makes the `validateEpoch` non-negative-integer check hold by type. -/
def deriveConversationKey (ecdh : Bytes → Bytes → Except String Bytes)
    (hkdf : Bytes → Bytes → Bytes → Nat → Bytes)
    (myPrivateKey peerPublicKey : Bytes) (myAddress peerAddress : String)
    (epoch : Nat) : Except String ConversationKeySpec :=
  if myPrivateKey.length ≠ 32 then
    .error (invalidKeyLenMsg ("myPrivateKey") myPrivateKey.length)
  else if peerPublicKey.length ≠ 32 then
    .error (invalidKeyLenMsg ("peerPublicKey") peerPublicKey.length)
  else if myAddress.data.all Char.isWhitespace then
    -- `address.trim().length === 0`: the address is all whitespace
    .error (emptyAddrMsg ("myAddress"))
  else if ethAddrTest myAddress = false then
    .error (badAddrMsg ("myAddress"))
  else if peerAddress.data.all Char.isWhitespace then
    .error (emptyAddrMsg ("peerAddress"))
  else if ethAddrTest peerAddress = false then
    .error (badAddrMsg ("peerAddress"))
  else
    match ecdh myPrivateKey peerPublicKey with
    | .error m => .error (keyDerivFailMsg m)
    | .ok sharedSecret =>
      let p := jsSortPair (jsToLower myAddress) (jsToLower peerAddress)
      let info := utf8ToBytes
        (("retrochat:conversation:hkdf:v1|") ++ p.1 ++ ("|") ++ p.2 ++ ("|epoch=")
          ++ toString epoch)
      let keyMaterial := hkdf sharedSecret conversationSalt info 32
      .ok { key := keyMaterial, id := toHex (keyMaterial.take 16) }

theorem ethAddrTest_not_whitespace (s : String) (h : ethAddrTest s = true) :
    s.data.all Char.isWhitespace = false := by
  unfold ethAddrTest at h
  rcases hd : s.data with _ | ⟨c0, tail⟩ <;> rw [hd] at h
  · simp at h
  · rcases tail with _ | ⟨c1, rest⟩
    · simp at h
    · simp only [Bool.and_eq_true, beq_iff_eq] at h
      obtain ⟨⟨⟨h0, _⟩, _⟩, _⟩ := h
      subst h0
      simp [List.all_cons]

theorem jsSortPair_comm (a b : String) : jsSortPair a b = jsSortPair b a := by
  unfold jsSortPair
  rcases hab : strLeJs a b <;> rcases hba : strLeJs b a
  · rcases strLeJs_total a b with h | h
    · rw [hab] at h; cases h
    · rw [hba] at h; cases h
  · simp
  · simp
  · rw [strLeJs_antisymm a b hab hba]

/-- Claim C1: conversation key derivation is symmetric.  For valid
keypairs (32-byte keys whose ECDH shared secret agrees in both
directions, which holds for every genuine X25519 keypair pair), valid
Ethereum addresses and any epoch, deriving from (privA, pubB, addrA,
addrB) and from (privB, pubA, addrB, addrA) produces the same key
material and the same conversation id: the HKDF info string sorts the two
lowercased addresses, so both parties feed identical inputs to HKDF. -/
theorem deriveConversationKey_symmetric
    (ecdh : Bytes → Bytes → Except String Bytes)
    (hkdf : Bytes → Bytes → Bytes → Nat → Bytes)
    (privA pubA privB pubB : Bytes) (addrA addrB : String) (epoch : Nat)
    (hpa : privA.length = 32) (hpb : pubA.length = 32)
    (hqa : privB.length = 32) (hqb : pubB.length = 32)
    (haA : ethAddrTest addrA = true) (haB : ethAddrTest addrB = true)
    (hsym : ecdh privA pubB = ecdh privB pubA) :
    deriveConversationKey ecdh hkdf privA pubB addrA addrB epoch =
      deriveConversationKey ecdh hkdf privB pubA addrB addrA epoch := by
  have hwA := ethAddrTest_not_whitespace addrA haA
  have hwB := ethAddrTest_not_whitespace addrB haB
  unfold deriveConversationKey
  simp only [hpa, hqa, hpb, hqb, hwA, hwB, haA, haB]
  rw [hsym]
  cases ecdh privB pubA with
  | error m => rfl
  | ok sharedSecret => simp only [jsSortPair_comm (jsToLower addrA) (jsToLower addrB)]

/-- Witness for claim C1 at concrete inputs: distinct 32-byte keys, the
addresses `0xaa…a` and `0xbb…b`, epoch 7, a constant (hence symmetric)
ECDH function and an arbitrary HKDF function. -/
theorem deriveConversationKey_symmetric_witness :
    deriveConversationKey (fun _ _ => .ok (List.replicate 32 9))
      (fun ikm _ info _ => ikm ++ info)
      (List.replicate 32 1) (List.replicate 32 2)
      ("0xaaaaaaaaaaaaaaaaaaaaaaaaaaaaaaaaaaaaaaaa")
      ("0xbbbbbbbbbbbbbbbbbbbbbbbbbbbbbbbbbbbbbbbb") 7 =
    deriveConversationKey (fun _ _ => .ok (List.replicate 32 9))
      (fun ikm _ info _ => ikm ++ info)
      (List.replicate 32 3) (List.replicate 32 4)
      ("0xbbbbbbbbbbbbbbbbbbbbbbbbbbbbbbbbbbbbbbbb")
      ("0xaaaaaaaaaaaaaaaaaaaaaaaaaaaaaaaaaaaaaaaa") 7 :=
  deriveConversationKey_symmetric
    (fun _ _ => .ok (List.replicate 32 9)) (fun ikm _ info _ => ikm ++ info)
    (List.replicate 32 1) (List.replicate 32 4) (List.replicate 32 3) (List.replicate 32 2)
    ("0xaaaaaaaaaaaaaaaaaaaaaaaaaaaaaaaaaaaaaaaa")
    ("0xbbbbbbbbbbbbbbbbbbbbbbbbbbbbbbbbbbbbbbbb") 7
    (by decide) (by decide) (by decide) (by decide) (by decide) (by decide) rfl

/-! ## Message envelopes (`src/core/protocol.ts`, `src/core/validate/message.ts`) -/

/-- The `MessageEnvelope` record of `protocol.ts`.  `from`/`to` are named
`fromAddr`/`toAddr` (`from` is reserved in Lean).  `v` is an `Int` since
zod's `z.number().int()` only lets integers through.  This same shape is
the input of the schema validator: zod first enforces exactly these field
types, so a well-typed value is the general case there. -/
structure MessageEnvelope where
  v : Int
  fromAddr : String
  toAddr : String
  ts : String
  nonce : String
  iv : String
  ciphertext : String
  aad : Option String
deriving DecidableEq

/-- `deriveMessageId` (defined identically in `core/protocol.ts` and in
the messages repository): hex of SHA-256 of the UTF-8 bytes of
`nonce + ciphertext`.  `sha256` is noble's hash, passed as a parameter. -/
def deriveMessageId (sha256 : Bytes → Bytes) (envelope : MessageEnvelope) : String :=
  toHex (sha256 (utf8ToBytes (envelope.nonce ++ envelope.ciphertext)))

/-- Claim C7: the message id is the hex encoding of
SHA256(nonce ‖ ciphertext) and is content-addressed — any two envelopes
agreeing on `nonce` and `ciphertext` get the same id, whatever their
other fields are. -/
theorem deriveMessageId_content_addressed (sha256 : Bytes → Bytes)
    (e1 e2 : MessageEnvelope) (hn : e1.nonce = e2.nonce)
    (hc : e1.ciphertext = e2.ciphertext) :
    deriveMessageId sha256 e1 = deriveMessageId sha256 e2 ∧
      deriveMessageId sha256 e1 = toHex (sha256 (utf8ToBytes (e1.nonce ++ e1.ciphertext))) := by
  unfold deriveMessageId
  rw [hn, hc]
  exact ⟨rfl, rfl⟩

/-- Witness for claim C7: two envelopes sharing nonce and ciphertext but
differing in version, addresses, timestamp, iv and aad. -/
theorem deriveMessageId_content_addressed_witness :
    deriveMessageId (fun bs => bs)
        { v := 1, fromAddr := ("0xA"), toAddr := ("0xB"), ts := ("2024-01-01T00:00:00Z"),
          nonce := ("aabb"), iv := ("cc"), ciphertext := ("dd"), aad := none } =
      deriveMessageId (fun bs => bs)
        { v := 2, fromAddr := ("0xC"), toAddr := ("0xD"), ts := ("2025-02-02T00:00:00Z"),
          nonce := ("aabb"), iv := ("ee"), ciphertext := ("dd"), aad := some ("ff") } ∧
    deriveMessageId (fun bs => bs)
        { v := 1, fromAddr := ("0xA"), toAddr := ("0xB"), ts := ("2024-01-01T00:00:00Z"),
          nonce := ("aabb"), iv := ("cc"), ciphertext := ("dd"), aad := none } =
      toHex (utf8ToBytes (("aabb") ++ ("dd"))) :=
  deriveMessageId_content_addressed (fun bs => bs)
    { v := 1, fromAddr := ("0xA"), toAddr := ("0xB"), ts := ("2024-01-01T00:00:00Z"),
      nonce := ("aabb"), iv := ("cc"), ciphertext := ("dd"), aad := none }
    { v := 2, fromAddr := ("0xC"), toAddr := ("0xD"), ts := ("2025-02-02T00:00:00Z"),
      nonce := ("aabb"), iv := ("ee"), ciphertext := ("dd"), aad := some ("ff") }
    rfl rfl

/-! ## Envelope schema validation (`src/core/validate/message.ts`) -/

/-- zod `HexSchema`: even length, and matches `^[0-9a-fA-F]+$` (which
requires at least one digit). -/
def hexSchemaOk (s : String) : Bool :=
  decide (s.length % 2 = 0) && (s.length != 0) && s.data.all isHexDigitChar

/-- The `MessageEnvelopeSchema` acceptance condition.  `isAddr` stands
for viem's `isAddress` (checksummable-address test) and `isDatetime` for
zod's `.datetime()` ISO-8601 test; both are external library predicates
passed as parameters. -/
def messageEnvelopeSchemaOk (isAddr isDatetime : String → Bool)
    (e : MessageEnvelope) : Bool :=
  decide ((1 : Int) ≤ e.v) && decide (e.v ≤ 1) &&
  isAddr e.fromAddr && isAddr e.toAddr && isDatetime e.ts &&
  (hexSchemaOk e.nonce && decide (e.nonce.length = 32)) &&
  (hexSchemaOk e.iv && decide (e.iv.length = 24)) &&
  (hexSchemaOk e.ciphertext && decide (0 < e.ciphertext.length)) &&
  (match e.aad with | none => true | some a => hexSchemaOk a)

/-- Generic error returned for every schema rejection. -/
def invalidPayloadMsg : String := "Invalid message payload."

/-- `safeParseMessageEnvelope`: zod-validate; on any failure return the
single generic error with no field-specific detail. -/
def safeParseMessageEnvelope (isAddr isDatetime : String → Bool)
    (e : MessageEnvelope) : Except String MessageEnvelope :=
  if messageEnvelopeSchemaOk isAddr isDatetime e then .ok e
  else .error invalidPayloadMsg

/-- Specification-side notion of a valid hex string: nonempty and
strictly decodable (a sequence of one or more hex-digit pairs). -/
def hexValidClaim (s : String) : Bool := (hexDecode s).isSome && (s.length != 0)

/-- Acceptance condition as the claim words it: version is 1, addresses
and timestamp pass their (library) tests, the nonce hex-decodes to
exactly 16 bytes, the iv to exactly 12 bytes, the ciphertext to at least
1 byte, and the aad — when present — is valid hex. -/
def envelopeClaimAccept (isAddr isDatetime : String → Bool)
    (e : MessageEnvelope) : Bool :=
  decide (e.v = 1) &&
  isAddr e.fromAddr && isAddr e.toAddr && isDatetime e.ts &&
  decide ((hexDecode e.nonce).map List.length = some 16) &&
  decide ((hexDecode e.iv).map List.length = some 12) &&
  (match hexDecode e.ciphertext with
   | some bs => decide (1 ≤ bs.length)
   | none => false) &&
  (match e.aad with | none => true | some a => hexValidClaim a)

theorem hexDecodeList_isSome : ∀ cs : List Char,
    (hexDecodeList cs).isSome = (decide (cs.length % 2 = 0) && cs.all isHexDigitChar)
  | [] => rfl
  | [_] => by simp [hexDecodeList]
  | c1 :: c2 :: rest => by
    have ih := hexDecodeList_isSome rest
    have hlen : (c1 :: c2 :: rest).length % 2 = rest.length % 2 := by
      simp only [List.length_cons]; omega
    simp only [hexDecodeList, List.all_cons, hlen, isHexDigitChar]
    cases h1 : hexDigitVal? c1 <;> cases h2 : hexDigitVal? c2 <;>
      cases h3 : hexDecodeList rest <;> simp_all

theorem hexDecodeList_length : ∀ cs : List Char, ∀ bs : Bytes,
    hexDecodeList cs = some bs → 2 * bs.length = cs.length
  | [], bs, h => by
    simp only [hexDecodeList, Option.some_inj] at h
    subst h
    rfl
  | [_], bs, h => by simp [hexDecodeList] at h
  | c1 :: c2 :: rest, bs, h => by
    rcases h1 : hexDigitVal? c1 with _ | hi <;> rcases h2 : hexDigitVal? c2 with _ | lo <;>
      rcases h3 : hexDecodeList rest with _ | tail <;>
        simp [hexDecodeList, h1, h2, h3] at h
    have ih := hexDecodeList_length rest tail h3
    subst h
    simp only [List.length_cons]
    omega

theorem string_length_data (s : String) : s.length = s.data.length := rfl

theorem string_ne_empty_iff (s : String) : (s.length != 0) = !(s.data.isEmpty) := by
  cases s with
  | mk data => cases data <;> simp [string_length_data]

theorem hexDecode_isSome_eq (s : String) :
    (hexDecode s).isSome = (decide (s.length % 2 = 0) && s.data.all isHexDigitChar) := by
  rw [show hexDecode s = hexDecodeList s.data from rfl, hexDecodeList_isSome,
    string_length_data]

theorem hexDecode_map_length_iff (s : String) (n : Nat) :
    ((hexDecode s).map List.length = some n) ↔
      (s.length % 2 = 0 ∧ s.data.all isHexDigitChar = true ∧ s.length = 2 * n) := by
  have hiff := hexDecode_isSome_eq s
  cases h : hexDecode s with
  | none =>
    rw [h] at hiff
    simp only [h, Option.map_none']
    constructor
    · intro hfalse
      exact absurd hfalse (by simp)
    · rintro ⟨heven, hall, _⟩
      have htrue : (decide (s.length % 2 = 0) && s.data.all isHexDigitChar) = true := by
        simp [heven, hall]
      rw [← hiff] at htrue
      simp at htrue
  | some bs =>
    rw [h] at hiff
    have hsome : (decide (s.length % 2 = 0) && s.data.all isHexDigitChar) = true := by
      rw [← hiff]; rfl
    simp only [Bool.and_eq_true, decide_eq_true_eq] at hsome
    have hlen := hexDecodeList_length s.data bs h
    rw [← string_length_data] at hlen
    simp only [h, Option.map_some', Option.some_inj]
    constructor
    · rintro rfl
      exact ⟨hsome.1, hsome.2, by omega⟩
    · rintro ⟨_, _, hl⟩
      omega

theorem hexSchemaOk_len_iff (s : String) (n : Nat) (hn : 0 < n) :
    (hexSchemaOk s && decide (s.length = 2 * n)) =
      decide ((hexDecode s).map List.length = some n) := by
  rw [Bool.eq_iff_iff]
  simp only [hexSchemaOk, Bool.and_eq_true, decide_eq_true_eq, bne_iff_ne, ne_eq,
    hexDecode_map_length_iff]
  constructor
  · rintro ⟨⟨⟨heven, _⟩, hall⟩, hl⟩
    exact ⟨heven, hall, hl⟩
  · rintro ⟨heven, hall, hl⟩
    exact ⟨⟨⟨heven, by omega⟩, hall⟩, hl⟩

theorem hexSchemaOk_pos_iff (s : String) :
    (hexSchemaOk s && decide (0 < s.length)) =
      (match hexDecode s with
       | some bs => decide (1 ≤ bs.length)
       | none => false) := by
  have hiff := hexDecode_isSome_eq s
  cases h : hexDecode s with
  | none =>
    show (hexSchemaOk s && decide (0 < s.length)) = false
    rw [Bool.eq_iff_iff]
    simp only [Bool.and_eq_true, Bool.false_eq_true, iff_false, not_and]
    intro hok _
    simp only [hexSchemaOk, Bool.and_eq_true, decide_eq_true_eq] at hok
    obtain ⟨⟨heven, _⟩, hall⟩ := hok
    have htrue : (decide (s.length % 2 = 0) && s.data.all isHexDigitChar) = true := by
      simp [heven, hall]
    rw [← hiff, h] at htrue
    simp at htrue
  | some bs =>
    show (hexSchemaOk s && decide (0 < s.length)) = decide (1 ≤ bs.length)
    have hsome : (decide (s.length % 2 = 0) && s.data.all isHexDigitChar) = true := by
      rw [← hiff, h]; rfl
    simp only [Bool.and_eq_true, decide_eq_true_eq] at hsome
    have hlen := hexDecodeList_length s.data bs h
    rw [← string_length_data] at hlen
    rw [Bool.eq_iff_iff]
    simp only [hexSchemaOk, Bool.and_eq_true, decide_eq_true_eq, bne_iff_ne, ne_eq]
    constructor
    · rintro ⟨_, hpos⟩
      omega
    · intro h1
      exact ⟨⟨⟨hsome.1, by omega⟩, hsome.2⟩, by omega⟩

theorem hexSchemaOk_eq_hexValidClaim (s : String) : hexSchemaOk s = hexValidClaim s := by
  unfold hexSchemaOk hexValidClaim
  rw [hexDecode_isSome_eq]
  rcases hb : decide (s.length % 2 = 0) <;> rcases hc : (s.length != 0) <;>
    rcases hd : s.data.all isHexDigitChar <;> rfl

theorem messageEnvelopeSchemaOk_eq_claim (isAddr isDatetime : String → Bool)
    (e : MessageEnvelope) :
    messageEnvelopeSchemaOk isAddr isDatetime e = envelopeClaimAccept isAddr isDatetime e := by
  unfold messageEnvelopeSchemaOk envelopeClaimAccept
  have hv : (decide ((1 : Int) ≤ e.v) && decide (e.v ≤ 1)) = decide (e.v = 1) := by
    rw [Bool.eq_iff_iff]; simp only [Bool.and_eq_true, decide_eq_true_eq]; omega
  have hnonce := hexSchemaOk_len_iff e.nonce 16 (by omega)
  have hiv := hexSchemaOk_len_iff e.iv 12 (by omega)
  have hct := hexSchemaOk_pos_iff e.ciphertext
  have haad : (match e.aad with | none => true | some a => hexSchemaOk a) =
      (match e.aad with | none => true | some a => hexValidClaim a) := by
    cases e.aad with
    | none => rfl
    | some a => exact hexSchemaOk_eq_hexValidClaim a
  rw [← hv, ← haad, ← hct, ← hnonce, ← hiv]

/-- Claim C6: envelope schema validation accepts exactly the inputs
described by the spec (version 1, library-valid addresses and timestamp,
16-byte nonce hex, 12-byte iv hex, nonempty ciphertext hex, optional aad
valid hex — a nonempty string of hex-digit pairs), and every rejection
returns the one generic validation error. -/
theorem safeParseMessageEnvelope_claim (isAddr isDatetime : String → Bool)
    (e : MessageEnvelope) :
    safeParseMessageEnvelope isAddr isDatetime e =
      (if envelopeClaimAccept isAddr isDatetime e then .ok e
       else .error invalidPayloadMsg) := by
  unfold safeParseMessageEnvelope
  rw [messageEnvelopeSchemaOk_eq_claim]

/-! ## Vault storage layer (`src/storage/db.ts`, `src/storage/vault.ts`) -/

/-- `EncryptedBlob` of `db.ts`: AES-GCM iv plus ciphertext. -/
structure EncryptedBlob where
  iv : Bytes
  ciphertext : Bytes
deriving DecidableEq

/-- `VaultRow` of `db.ts`. -/
structure VaultRow where
  id : String
  blob : EncryptedBlob
  createdAt : String
  updatedAt : String
deriving DecidableEq

/-- Contents of one IndexedDB object store (`keyPath: 'id'`), as the list
of its rows; `dbPut`/`dbGet` keep at most one row per id. -/
abbrev StoreRows := List VaultRow

/-- IndexedDB `get` by primary key. -/
def dbGet (db : StoreRows) (id : String) : Option VaultRow :=
  db.find? (fun r => r.id == id)

/-- IndexedDB `put`: replace the row with the same primary key, or insert
a new one. -/
def dbPut (db : StoreRows) (row : VaultRow) : StoreRows :=
  if db.any (fun r => r.id == row.id) then
    db.map (fun r => if r.id == row.id then row else r)
  else db ++ [row]

theorem find?_map_replace (row : VaultRow) : ∀ db : StoreRows,
    db.any (fun r => r.id == row.id) = true →
      (db.map (fun r => if r.id == row.id then row else r)).find?
        (fun r => r.id == row.id) = some row
  | [], h => by simp at h
  | hd :: tl, h => by
    rcases hhd : hd.id == row.id with _ | _
    · have hh : (if hd.id == row.id then row else hd) = hd := by simp [hhd]
      simp only [List.map_cons, hh]
      rw [List.find?_cons_of_neg _ (by simp [hhd])]
      apply find?_map_replace row tl
      simpa [hhd] using h
    · have hh : (if hd.id == row.id then row else hd) = row := by simp [hhd]
      simp only [List.map_cons, hh]
      exact List.find?_cons_of_pos _ (by simp)

theorem dbGet_dbPut (db : StoreRows) (row : VaultRow) :
    dbGet (dbPut db row) row.id = some row := by
  unfold dbGet dbPut
  rcases hany : db.any (fun r => r.id == row.id) with _ | _
  · rw [if_neg (by simp [hany])]
    rw [List.find?_append]
    have hnone : db.find? (fun r => r.id == row.id) = none := by
      rw [List.find?_eq_none]
      intro x hx
      rw [List.any_eq_false] at hany
      simpa using hany x hx
    rw [hnone]
    simp [List.find?]
  · rw [if_pos rfl]
    exact find?_map_replace row db hany

/-- The five logical stores of the vault database. -/
inductive StoreName where
  | keys | contacts | conversations | messages | settings
deriving DecidableEq

/-- Whole-database state: the five object stores. -/
structure VaultState where
  keys : StoreRows
  contacts : StoreRows
  conversations : StoreRows
  messages : StoreRows
  settings : StoreRows
deriving DecidableEq

/-- Read one store of the database. -/
def getStore (v : VaultState) : StoreName → StoreRows
  | .keys => v.keys
  | .contacts => v.contacts
  | .conversations => v.conversations
  | .messages => v.messages
  | .settings => v.settings

/-- Replace one store of the database. -/
def setStore (v : VaultState) : StoreName → StoreRows → VaultState
  | .keys, rows => { v with keys := rows }
  | .contacts, rows => { v with contacts := rows }
  | .conversations, rows => { v with conversations := rows }
  | .messages, rows => { v with messages := rows }
  | .settings, rows => { v with settings := rows }

theorem getStore_setStore (v : VaultState) (s : StoreName) (rows : StoreRows) :
    getStore (setStore v s rows) s = rows := by
  cases s <;> rfl

/-- The state `resetVault()` leaves behind: the database deleted and
recreated with five empty stores. -/
def emptyVault : VaultState :=
  { keys := [], contacts := [], conversations := [], messages := [], settings := [] }

/-- `putEncryptedRecord` from `vault.ts`: AEAD-encrypt the plaintext
(`encryptAead` draws a fresh random IV, so the resulting blob enters as
the parameter `encrypt`), take `now = new Date().toISOString()` (the
parameter `now`), and `db.put` a row whose `createdAt` and `updatedAt`
are both `now`. -/
def putEncryptedRecord (encrypt : Bytes → Option Bytes → EncryptedBlob) (now : String)
    (v : VaultState) (store : StoreName) (id : String) (plaintext : Bytes)
    (aad : Option Bytes) : VaultState :=
  let row : VaultRow :=
    { id := id, blob := encrypt plaintext aad, createdAt := now, updatedAt := now }
  setStore v store (dbPut (getStore v store) row)

/-- Claim C10: every row written through `putEncryptedRecord` has
`createdAt = updatedAt = now`; in particular a put to an existing id
replaces the row wholesale, so the original `createdAt` is overwritten
and the two timestamps of a row written through this path always
coincide, whatever the prior contents of the store were. -/
theorem putEncryptedRecord_timestamps (encrypt : Bytes → Option Bytes → EncryptedBlob)
    (now : String) (v : VaultState) (store : StoreName) (id : String)
    (plaintext : Bytes) (aad : Option Bytes) :
    dbGet (getStore (putEncryptedRecord encrypt now v store id plaintext aad) store) id =
      some { id := id, blob := encrypt plaintext aad, createdAt := now, updatedAt := now } := by
  unfold putEncryptedRecord
  rw [getStore_setStore]
  exact dbGet_dbPut (getStore v store)
    { id := id, blob := encrypt plaintext aad, createdAt := now, updatedAt := now }

/-! ## Message repository: `storeMessage` (messages store) -/

/-- Error for unsupported envelope versions in `storeMessage`. -/
def unsupportedVersionMsg (v : Int) : String :=
  ("Unsupported protocol version: ") ++ toString v

/-- `storeMessage` from the messages repository.  The AEAD encryption of
the JSON wrapper `{ envelope }` under the conversation key uses a fresh
random IV, so the produced blob is the parameter `encRecord`;  `clock`
is `new Date().toISOString()`, used only when `envelope.ts` is falsy
(the empty string).  Returns the message id and the updated messages
store.  The existence check and the put share one transaction in the
source; in this sequential model that is the atomic check-then-insert
below. -/
def storeMessage (sha256 : Bytes → Bytes) (encRecord : MessageEnvelope → EncryptedBlob)
    (clock : String) (db : StoreRows) (envelope : MessageEnvelope) :
    Except String (String × StoreRows) :=
  if envelope.v ≠ 1 then .error (unsupportedVersionMsg envelope.v)
  else
    let messageId := deriveMessageId sha256 envelope
    let blob := encRecord envelope
    let now := if envelope.ts = ("") then clock else envelope.ts
    let row : VaultRow := { id := messageId, blob := blob, createdAt := now, updatedAt := now }
    match dbGet db messageId with
    | some _ => .ok (messageId, db)
    | none => .ok (messageId, dbPut db row)

theorem dbPut_of_get_none (db : StoreRows) (row : VaultRow)
    (h : dbGet db row.id = none) : dbPut db row = db ++ [row] := by
  unfold dbPut
  unfold dbGet at h
  rw [List.find?_eq_none] at h
  have hfalse : db.any (fun r => r.id == row.id) = false := by
    rw [List.any_eq_false]
    intro x hx
    simpa using h x hx
  simp [hfalse]

theorem filter_id_count_one (db : StoreRows) (mid : String)
    (hnodup : (db.map VaultRow.id).Nodup) (r0 : VaultRow) (hmem : r0 ∈ db)
    (hid : r0.id = mid) : (db.filter (fun r => r.id == mid)).length = 1 := by
  induction db with
  | nil => cases hmem
  | cons hd tl ih =>
    simp only [List.map_cons, List.nodup_cons] at hnodup
    obtain ⟨hnotin, htl⟩ := hnodup
    rcases List.mem_cons.mp hmem with heq | hmem'
    · subst heq
      rw [List.filter_cons_of_pos (by simp [hid])]
      have hnil : tl.filter (fun r => r.id == mid) = [] := by
        rw [List.filter_eq_nil_iff]
        intro x hx
        simp only [beq_iff_eq]
        intro hxid
        exact hnotin (by rw [hid, ← hxid]; exact List.mem_map_of_mem VaultRow.id hx)
      simp [hnil]
    · have hhd : (hd.id == mid) = false := by
        simp only [beq_eq_false_iff_ne, ne_eq]
        intro heq
        exact hnotin (by rw [heq, ← hid]; exact List.mem_map_of_mem VaultRow.id hmem')
      rw [List.filter_cons_of_neg (by simp [hhd])]
      exact ih htl hmem'

/-- Claim C2: `storeMessage` is write-idempotent.  For a well-formed
envelope (`v = 1`) and a messages store with unique row ids, the first
call returns the content-derived id together with a store `db1`; a
second call with a byte-identical envelope returns the same id and
leaves `db1` untouched; `db1` holds exactly one row keyed by that id;
and whenever a row with the computed id already exists the store is
returned unchanged (the existing id is returned, nothing is
rewritten). -/
theorem storeMessage_idempotent (sha256 : Bytes → Bytes)
    (enc1 enc2 : MessageEnvelope → EncryptedBlob) (clock1 clock2 : String)
    (db : StoreRows) (envelope : MessageEnvelope)
    (hv : envelope.v = 1) (hnodup : (db.map VaultRow.id).Nodup) :
    ∃ db1, storeMessage sha256 enc1 clock1 db envelope =
        .ok (deriveMessageId sha256 envelope, db1) ∧
      storeMessage sha256 enc2 clock2 db1 envelope =
        .ok (deriveMessageId sha256 envelope, db1) ∧
      (db1.filter (fun r => r.id == deriveMessageId sha256 envelope)).length = 1 ∧
      (∀ r, dbGet db (deriveMessageId sha256 envelope) = some r → db1 = db) := by
  cases hget : dbGet db (deriveMessageId sha256 envelope) with
  | some r0 =>
    refine ⟨db, ?_, ?_, ?_, fun _ _ => rfl⟩
    · simp [storeMessage, hv, hget]
    · simp [storeMessage, hv, hget]
    · have hmem := List.mem_of_find?_eq_some hget
      have hr0 : r0.id = deriveMessageId sha256 envelope := by
        simpa using List.find?_some hget
      exact filter_id_count_one db _ hnodup r0 hmem hr0
  | none =>
    have hput := dbPut_of_get_none db
      { id := deriveMessageId sha256 envelope, blob := enc1 envelope,
        createdAt := if envelope.ts = ("") then clock1 else envelope.ts,
        updatedAt := if envelope.ts = ("") then clock1 else envelope.ts } hget
    have hget1 := dbGet_dbPut db
      { id := deriveMessageId sha256 envelope, blob := enc1 envelope,
        createdAt := if envelope.ts = ("") then clock1 else envelope.ts,
        updatedAt := if envelope.ts = ("") then clock1 else envelope.ts }
    refine ⟨dbPut db
      { id := deriveMessageId sha256 envelope, blob := enc1 envelope,
        createdAt := if envelope.ts = ("") then clock1 else envelope.ts,
        updatedAt := if envelope.ts = ("") then clock1 else envelope.ts }, ?_, ?_, ?_, ?_⟩
    · simp [storeMessage, hv, hget]
    · simp only [storeMessage]
      rw [if_neg (by omega)]
      rw [hget1]
    · rw [hput]
      have hnil : db.filter (fun r => r.id == deriveMessageId sha256 envelope) = [] := by
        rw [List.filter_eq_nil_iff]
        intro x hx
        unfold dbGet at hget
        rw [List.find?_eq_none] at hget
        simpa using hget x hx
      simp [List.filter_append, hnil]
    · intro r hr
      cases hr

/-- Witness for claim C2 at concrete inputs: the empty messages store, a
version-1 envelope, the identity as SHA-256 stand-in and constant
encryptors. -/
theorem storeMessage_idempotent_witness :
    ∃ db1, storeMessage (fun bs => bs) (fun _ => ⟨[0], [1]⟩) ("t1") []
        { v := 1, fromAddr := ("0xA"), toAddr := ("0xB"), ts := ("2024-01-01T00:00:00Z"),
          nonce := ("aabb"), iv := ("cc"), ciphertext := ("dd"), aad := none } =
        .ok (deriveMessageId (fun bs => bs)
          { v := 1, fromAddr := ("0xA"), toAddr := ("0xB"), ts := ("2024-01-01T00:00:00Z"),
            nonce := ("aabb"), iv := ("cc"), ciphertext := ("dd"), aad := none }, db1) ∧
      storeMessage (fun bs => bs) (fun _ => ⟨[2], [3]⟩) ("t2") db1
        { v := 1, fromAddr := ("0xA"), toAddr := ("0xB"), ts := ("2024-01-01T00:00:00Z"),
          nonce := ("aabb"), iv := ("cc"), ciphertext := ("dd"), aad := none } =
        .ok (deriveMessageId (fun bs => bs)
          { v := 1, fromAddr := ("0xA"), toAddr := ("0xB"), ts := ("2024-01-01T00:00:00Z"),
            nonce := ("aabb"), iv := ("cc"), ciphertext := ("dd"), aad := none }, db1) ∧
      (db1.filter (fun r => r.id == deriveMessageId (fun bs => bs)
          { v := 1, fromAddr := ("0xA"), toAddr := ("0xB"), ts := ("2024-01-01T00:00:00Z"),
            nonce := ("aabb"), iv := ("cc"), ciphertext := ("dd"), aad := none })).length = 1 ∧
      (∀ r, dbGet [] (deriveMessageId (fun bs => bs)
          { v := 1, fromAddr := ("0xA"), toAddr := ("0xB"), ts := ("2024-01-01T00:00:00Z"),
            nonce := ("aabb"), iv := ("cc"), ciphertext := ("dd"), aad := none }) = some r →
        db1 = []) :=
  storeMessage_idempotent (fun bs => bs) (fun _ => ⟨[0], [1]⟩) (fun _ => ⟨[2], [3]⟩)
    ("t1") ("t2") []
    { v := 1, fromAddr := ("0xA"), toAddr := ("0xB"), ts := ("2024-01-01T00:00:00Z"),
      nonce := ("aabb"), iv := ("cc"), ciphertext := ("dd"), aad := none }
    rfl (by simp)

/-! ## Message repository: `listMessages` -/

/-- Fixed AAD domain label of the messages store. -/
def messagesAadLabel : Bytes := utf8ToBytes ("retrochat:messages:v1")

/-- Error thrown by `decryptAead` on authentication failure. -/
def aeadAuthFailedMsg : String := "AEAD authentication failed"

/-- Error thrown when a stored row's key disagrees with the id recomputed
from the decrypted envelope. -/
def tamperMsg : String := "Message ID mismatch: tampering detected."

/-- Stand-in for the exception text of a failed `JSON.parse` (or of the
field access on a non-record value); `listMessages` catches every
error, so the text never matters there. -/
def jsonParseFailMsg : String := "Unexpected token in JSON"

/-- `decryptMessageRow`: AEAD-decrypt the row blob under the conversation
key and the messages AAD label, parse the JSON `MessageRecord` wrapper,
then recompute the message id from the decrypted envelope and compare it
with the row key (tamper detection).  `aeadDecrypt` is the WebCrypto
AES-GCM decrypt (`none` = authentication failure) and `parseRecord` is
`JSON.parse` plus the `.envelope` access. -/
def decryptMessageRow (aeadDecrypt : Bytes → EncryptedBlob → Bytes → Option Bytes)
    (parseRecord : Bytes → Option MessageEnvelope) (sha256 : Bytes → Bytes)
    (conversationKey : Bytes) (row : VaultRow) : Except String MessageEnvelope :=
  match aeadDecrypt conversationKey row.blob messagesAadLabel with
  | none => .error aeadAuthFailedMsg
  | some payload =>
    match parseRecord payload with
    | none => .error jsonParseFailMsg
    | some envelope =>
      if deriveMessageId sha256 envelope ≠ row.id then .error tamperMsg
      else .ok envelope

/-- Index order of the `by-timestamp` index (keyPath `updatedAt`):
IndexedDB sorts index entries by key, ties broken by primary key. -/
def rowIndexLe (a b : VaultRow) : Bool :=
  if a.updatedAt == b.updatedAt then strLeJs a.id b.id else strLeJs a.updatedAt b.updatedAt

/-- The row sequence produced by `index.openCursor(null, 'prev')`: the
`by-timestamp` index traversed backwards, i.e. descending by
(updatedAt, id). -/
def indexScanPrev (db : StoreRows) : StoreRows := (db.mergeSort rowIndexLe).reverse

/-- The `before` bound: `before && row.updatedAt >= before` makes the loop
skip the row (an empty-string bound is falsy and therefore inert). -/
def beforeSkip (bound : Option String) (row : VaultRow) : Bool :=
  match bound with
  | some b => (b != ("")) && strLeJs b row.updatedAt
  | none => false

/-- The `after` bound: `after && row.updatedAt <= after` breaks the scan
(an empty-string bound is falsy and therefore inert). -/
def afterStop (bound : Option String) (row : VaultRow) : Bool :=
  match bound with
  | some a => (a != ("")) && strLeJs row.updatedAt a
  | none => false

/-- The cursor loop of `listMessages`: while there is a row and fewer
than `limit` messages are collected — skip rows failing the `before`
bound, stop at the first row caught by the `after` bound, try to decrypt
the row, append on success, silently skip on any error. -/
def listLoop (dec : VaultRow → Except String MessageEnvelope) (limit : Nat)
    (bBound aBound : Option String) : StoreRows → Nat → List MessageEnvelope
  | [], _ => []
  | row :: rest, count =>
    if limit ≤ count then []
    else if beforeSkip bBound row then listLoop dec limit bBound aBound rest count
    else if afterStop aBound row then []
    else
      match dec row with
      | .ok envelope => envelope :: listLoop dec limit bBound aBound rest (count + 1)
      | .error _ => listLoop dec limit bBound aBound rest count

/-- Final `messages.sort((a, b) => b.ts.localeCompare(a.ts))`: a stable
sort descending by envelope timestamp (locale comparison coincides with
code-point comparison on ISO-8601 ASCII timestamps). -/
def sortNewestFirst (ms : List MessageEnvelope) : List MessageEnvelope :=
  ms.mergeSort (fun a b => strLeJs b.ts a.ts)

/-- `listMessages` from the messages repository. -/
def listMessages (aeadDecrypt : Bytes → EncryptedBlob → Bytes → Option Bytes)
    (parseRecord : Bytes → Option MessageEnvelope) (sha256 : Bytes → Bytes)
    (conversationKey : Bytes) (limit : Nat) (bBound aBound : Option String)
    (db : StoreRows) : List MessageEnvelope :=
  sortNewestFirst
    (listLoop (decryptMessageRow aeadDecrypt parseRecord sha256 conversationKey)
      limit bBound aBound (indexScanPrev db) 0)

/-- Declarative reading of the claim: walk the timestamp index
descending, drop rows failing the `before` bound, cut the scan at the
first row caught by the `after` bound, keep the successfully decrypted
envelopes, stop after `limit` of them, and sort the result newest
first. -/
def listMessagesDeclarative (aeadDecrypt : Bytes → EncryptedBlob → Bytes → Option Bytes)
    (parseRecord : Bytes → Option MessageEnvelope) (sha256 : Bytes → Bytes)
    (conversationKey : Bytes) (limit : Nat) (bBound aBound : Option String)
    (db : StoreRows) : List MessageEnvelope :=
  sortNewestFirst
    (((((indexScanPrev db).filter (fun r => !(beforeSkip bBound r))).takeWhile
        (fun r => !(afterStop aBound r))).filterMap
        (fun r =>
          (decryptMessageRow aeadDecrypt parseRecord sha256 conversationKey r).toOption)).take
      limit)

theorem listLoop_eq (dec : VaultRow → Except String MessageEnvelope) (limit : Nat)
    (bBound aBound : Option String) : ∀ rows : StoreRows, ∀ count : Nat,
    listLoop dec limit bBound aBound rows count =
      (((rows.filter (fun r => !(beforeSkip bBound r))).takeWhile
        (fun r => !(afterStop aBound r))).filterMap
        (fun r => (dec r).toOption)).take (limit - count)
  | [], count => by simp [listLoop]
  | row :: rest, count => by
    by_cases hlim : limit ≤ count
    · rw [listLoop, if_pos hlim, Nat.sub_eq_zero_of_le hlim]
      simp
    · rw [listLoop, if_neg hlim]
      by_cases hb : beforeSkip bBound row = true
      · rw [if_pos hb, List.filter_cons_of_neg (by simp [hb])]
        exact listLoop_eq dec limit bBound aBound rest count
      · rw [if_neg hb, List.filter_cons_of_pos (by simp [hb])]
        by_cases ha : afterStop aBound row = true
        · rw [if_pos ha, List.takeWhile_cons_of_neg (by simp [ha])]
          simp
        · rw [if_neg ha, List.takeWhile_cons_of_pos (by simp [ha])]
          cases hdec : dec row with
          | ok envelope =>
            have htoo : (dec row).toOption = some envelope := by
              simp [hdec, Except.toOption]
            have hcnt : limit - count = (limit - (count + 1)) + 1 := by omega
            simp only [List.filterMap_cons, htoo, hcnt, List.take_succ_cons]
            rw [listLoop_eq dec limit bBound aBound rest (count + 1)]
          | error e =>
            have htoo : (dec row).toOption = none := by
              simp [hdec, Except.toOption]
            simp only [List.filterMap_cons, htoo]
            exact listLoop_eq dec limit bBound aBound rest count

/-- Claim C8: `listMessages` scans the `by-timestamp` index in descending
order, applies the `before`/`after` bounds (`before` as a per-row skip,
`after` as a scan cut-off), skips every row whose decryption or
id-recomputation fails without aborting the whole list, stops once
`limit` successfully decrypted messages are collected, and returns the
result sorted newest-first by envelope timestamp — i.e. it equals the
declarative filter/cut/decrypt/take/sort pipeline. -/
theorem listMessages_claim (aeadDecrypt : Bytes → EncryptedBlob → Bytes → Option Bytes)
    (parseRecord : Bytes → Option MessageEnvelope) (sha256 : Bytes → Bytes)
    (conversationKey : Bytes) (limit : Nat) (bBound aBound : Option String)
    (db : StoreRows) :
    listMessages aeadDecrypt parseRecord sha256 conversationKey limit bBound aBound db =
      listMessagesDeclarative aeadDecrypt parseRecord sha256 conversationKey limit
        bBound aBound db := by
  unfold listMessages listMessagesDeclarative
  rw [listLoop_eq]
  rw [Nat.sub_zero]

/-! ## DSK wrap/unwrap (`src/crypto/dsk.ts`, `src/storage/keys.ts`) and
vault session unlock (the `VaultSessionProvider`) -/

/-- Fixed AAD domain label of the DSK wrap. -/
def dskAadLabel : Bytes := utf8ToBytes ("retrochat:dsk:v1")

/-- Primary key of the single DSK row in the `keys` store. -/
def dskId : String := "dsk"

/-- The `AuthError` text of `decryptDSK` when AEAD authentication of the
unwrap fails. -/
def wrongAccountMsg : String := "Wrong account or corrupted vault. Please reset the vault."

/-- Re-wrapped error of `getOrCreateDSK` for decrypt failures other than
the wrong-account one. -/
def dskCorruptMsg : String := "Failed to decrypt DSK. The vault may be corrupted."

/-- `decryptDSK`: AEAD-decrypt the wrapped DSK under the session key and
the DSK AAD label; an authentication failure (the only failure
`aeadDecrypt` models) is mapped to the wrong-account `AuthError`; the
decrypted raw key is re-imported unchanged (`importDSK`). -/
def decryptDSK (aeadDecrypt : Bytes → EncryptedBlob → Bytes → Option Bytes)
    (sessionKey : Bytes) (encryptedDSK : EncryptedBlob) : Except String Bytes :=
  match aeadDecrypt sessionKey encryptedDSK dskAadLabel with
  | some dskRaw => .ok dskRaw
  | none => .error wrongAccountMsg

/-- `getOrCreateDSK` from `storage/keys.ts`: read the `dsk` row of the
`keys` store; if present, unwrap it (the source re-wraps any failure
whose message does not contain `Wrong account` — in this embedding the
only failure `decryptDSK` produces is `wrongAccountMsg` itself, which
contains it, so the equality test below implements the
`includes('Wrong account')` check); if absent, generate a DSK (`gen`,
standing for the random `generateDSK`), wrap it under the session key
(`aeadEncrypt`, whose fresh random IV makes the blob a parameter) and
put one row whose timestamps are both `now`. -/
def getOrCreateDSK (aeadDecrypt : Bytes → EncryptedBlob → Bytes → Option Bytes)
    (aeadEncrypt : Bytes → Bytes → Bytes → EncryptedBlob) (gen : Bytes) (now : String)
    (sessionKey : Bytes) (keys : StoreRows) : Except String (Bytes × StoreRows) :=
  match dbGet keys dskId with
  | some existing =>
    match decryptDSK aeadDecrypt sessionKey existing.blob with
    | .ok dsk => .ok (dsk, keys)
    | .error e => .error (if e = wrongAccountMsg then e else dskCorruptMsg)
  | none =>
    let blob := aeadEncrypt sessionKey gen dskAadLabel
    .ok (gen, dbPut keys { id := dskId, blob := blob, createdAt := now, updatedAt := now })

/-- Session states of the `VaultSessionProvider` (the `unlocked` state
carries the session key, its fingerprint, the DSK and the normalized
address). -/
inductive VaultSessionState where
  | locked
  | unlocking
  | unlocked (key : Bytes) (fingerprint : String) (dsk : Bytes) (address : String)
  | error (msg : String)
deriving DecidableEq

/-- Validation messages of `unlockFromSignature`. -/
def missingAddrMsg : String := "Missing address for unlock."

/-- Message for an address failing the `^0x[a-fA-F0-9]{40}$` test. -/
def invalidAddrMsg : String := "Invalid Ethereum address format."

/-- Message for a missing signature. -/
def missingSigMsg : String := "Missing signature for unlock."

/-- Message for a signature failing the 65-byte hex shape test. -/
def invalidSigMsg : String := "Invalid signature format."

/-- `isValidEthereumAddress` of the session provider: the same
`^0x[a-fA-F0-9]{40}$` regex as `validateAddress`. -/
def isValidEthereumAddress (address : String) : Bool := ethAddrTest address

/-- `isValidSignatureFormat`: strip an optional `0x` prefix, then require
exactly 130 hex characters (65 bytes: r ‖ s ‖ v). -/
def isValidSignatureFormat (signature : String) : Bool :=
  match signature.data with
  | '0' :: 'x' :: rest => rest.length == 130 && rest.all isHexDigitChar
  | l => l.length == 130 && l.all isHexDigitChar

/-- Result of one `unlockFromSignature` call: the final session state,
the resulting `keys` store, and whether the DSK path (a storage read)
was ever reached. -/
structure UnlockResult where
  session : VaultSessionState
  keys : StoreRows
  dskAccessed : Bool
deriving DecidableEq

/-- `unlockFromSignature` of the `VaultSessionProvider`: validate address
and signature shape, derive the session key material
(`material = SHA256(label ‖ signatureBytes)`, the missing
`crypto/unlock.ts` derivation, abstracted as a parameter), import it as
the session key, compute the 8-byte fingerprint, then get-or-create the
DSK; every thrown error becomes the `error` session state.  The
transient `unlocking` state and the replay-tracking ref have no bearing
on the final state and are not modelled. -/
def unlockFromSignature (material : String → Bytes)
    (aeadDecrypt : Bytes → EncryptedBlob → Bytes → Option Bytes)
    (aeadEncrypt : Bytes → Bytes → Bytes → EncryptedBlob) (gen : Bytes) (now : String)
    (signature address : String) (keys : StoreRows) : UnlockResult :=
  if address = ("") then { session := .error missingAddrMsg, keys := keys, dskAccessed := false }
  else if isValidEthereumAddress address = false then
    { session := .error invalidAddrMsg, keys := keys, dskAccessed := false }
  else if signature = ("") then
    { session := .error missingSigMsg, keys := keys, dskAccessed := false }
  else if isValidSignatureFormat signature = false then
    { session := .error invalidSigMsg, keys := keys, dskAccessed := false }
  else
    let normalizedAddress := jsToLower address
    let m := material signature
    let fingerprint := toHex (m.take 8)
    match getOrCreateDSK aeadDecrypt aeadEncrypt gen now m keys with
    | .ok (dsk, keys1) =>
      { session := .unlocked m fingerprint dsk normalizedAddress, keys := keys1,
        dskAccessed := true }
    | .error e => { session := .error e, keys := keys, dskAccessed := true }

/-- Claim C4: with a well-formed address and signature but a stored DSK
row whose AEAD authentication fails under the derived session key (a row
wrapped under a different session key), unlock ends in the `error` state
carrying the wrong-account `AuthError`, and in particular not in the
`unlocked` state. -/
theorem unlockFromSignature_wrong_account (material : String → Bytes)
    (aeadDecrypt : Bytes → EncryptedBlob → Bytes → Option Bytes)
    (aeadEncrypt : Bytes → Bytes → Bytes → EncryptedBlob) (gen : Bytes) (now : String)
    (signature address : String) (keys : StoreRows) (row : VaultRow)
    (haddr : isValidEthereumAddress address = true)
    (hsig : isValidSignatureFormat signature = true)
    (hrow : dbGet keys dskId = some row)
    (hauth : aeadDecrypt (material signature) row.blob dskAadLabel = none) :
    (unlockFromSignature material aeadDecrypt aeadEncrypt gen now signature address
        keys).session = .error wrongAccountMsg ∧
      ∀ k f d a, (unlockFromSignature material aeadDecrypt aeadEncrypt gen now signature
        address keys).session ≠ .unlocked k f d a := by
  have haddr' : address ≠ ("") := by
    intro h
    rw [h] at haddr
    exact absurd haddr (by decide)
  have hsig' : signature ≠ ("") := by
    intro h
    rw [h] at hsig
    exact absurd hsig (by decide)
  have hsession : (unlockFromSignature material aeadDecrypt aeadEncrypt gen now signature
      address keys).session = .error wrongAccountMsg := by
    unfold unlockFromSignature
    rw [if_neg haddr', if_neg (by simp [haddr]), if_neg hsig', if_neg (by simp [hsig])]
    unfold getOrCreateDSK decryptDSK
    simp [hrow, hauth]
  exact ⟨hsession, by rw [hsession]; intro k f d a h; cases h⟩

set_option maxRecDepth 8192 in
/-- Witness for claim C4: a one-row `keys` store holding a DSK blob that
fails authentication under the derived session key. -/
theorem unlockFromSignature_wrong_account_witness :
    (unlockFromSignature (fun _ => List.replicate 32 7) (fun _ _ _ => none)
        (fun _ _ _ => ⟨[1], [2]⟩) (List.replicate 32 8) ("2024-01-01T00:00:00Z")
        (("0x") ++ String.mk (List.replicate 130 'b'))
        ("0xaaaaaaaaaaaaaaaaaaaaaaaaaaaaaaaaaaaaaaaa")
        [{ id := ("dsk"), blob := ⟨[3], [4]⟩, createdAt := ("t"), updatedAt := ("t") }]).session =
      .error wrongAccountMsg ∧
    ∀ k f d a,
      (unlockFromSignature (fun _ => List.replicate 32 7) (fun _ _ _ => none)
        (fun _ _ _ => ⟨[1], [2]⟩) (List.replicate 32 8) ("2024-01-01T00:00:00Z")
        (("0x") ++ String.mk (List.replicate 130 'b'))
        ("0xaaaaaaaaaaaaaaaaaaaaaaaaaaaaaaaaaaaaaaaa")
        [{ id := ("dsk"), blob := ⟨[3], [4]⟩, createdAt := ("t"), updatedAt := ("t") }]).session ≠
        .unlocked k f d a :=
  unlockFromSignature_wrong_account (fun _ => List.replicate 32 7) (fun _ _ _ => none)
    (fun _ _ _ => ⟨[1], [2]⟩) (List.replicate 32 8) ("2024-01-01T00:00:00Z")
    (("0x") ++ String.mk (List.replicate 130 'b'))
    ("0xaaaaaaaaaaaaaaaaaaaaaaaaaaaaaaaaaaaaaaaa")
    [{ id := ("dsk"), blob := ⟨[3], [4]⟩, createdAt := ("t"), updatedAt := ("t") }]
    { id := ("dsk"), blob := ⟨[3], [4]⟩, createdAt := ("t"), updatedAt := ("t") }
    (by decide) (by decide) (by decide) rfl

/-- Claim C5: when the address fails the `^0x[0-9a-fA-F]{40}$` test or
the signature fails the 65-byte hex test, `unlockFromSignature` ends in
the `error` state with one of the four validation messages, the DSK path
is never reached (no storage read is attempted) and the `keys` store is
untouched — and being a total function it cannot crash. -/
theorem unlockFromSignature_validates_first (material : String → Bytes)
    (aeadDecrypt : Bytes → EncryptedBlob → Bytes → Option Bytes)
    (aeadEncrypt : Bytes → Bytes → Bytes → EncryptedBlob) (gen : Bytes) (now : String)
    (signature address : String) (keys : StoreRows)
    (h : isValidEthereumAddress address = false ∨ isValidSignatureFormat signature = false) :
    (unlockFromSignature material aeadDecrypt aeadEncrypt gen now signature address
        keys).dskAccessed = false ∧
      (unlockFromSignature material aeadDecrypt aeadEncrypt gen now signature address
        keys).keys = keys ∧
      ((unlockFromSignature material aeadDecrypt aeadEncrypt gen now signature address
          keys).session = .error missingAddrMsg ∨
        (unlockFromSignature material aeadDecrypt aeadEncrypt gen now signature address
          keys).session = .error invalidAddrMsg ∨
        (unlockFromSignature material aeadDecrypt aeadEncrypt gen now signature address
          keys).session = .error missingSigMsg ∨
        (unlockFromSignature material aeadDecrypt aeadEncrypt gen now signature address
          keys).session = .error invalidSigMsg) := by
  unfold unlockFromSignature
  by_cases ha0 : address = ("")
  · rw [if_pos ha0]
    exact ⟨rfl, rfl, Or.inl rfl⟩
  · rw [if_neg ha0]
    by_cases ha1 : isValidEthereumAddress address = false
    · rw [if_pos ha1]
      exact ⟨rfl, rfl, Or.inr (Or.inl rfl)⟩
    · rw [if_neg ha1]
      have hs : isValidSignatureFormat signature = false := by
        rcases h with h | h
        · exact absurd h ha1
        · exact h
      by_cases hs0 : signature = ("")
      · rw [if_pos hs0]
        exact ⟨rfl, rfl, Or.inr (Or.inr (Or.inl rfl))⟩
      · rw [if_neg hs0, if_pos hs]
        exact ⟨rfl, rfl, Or.inr (Or.inr (Or.inr rfl))⟩

set_option maxRecDepth 8192 in
/-- Witness for claim C5 at the spec's own scenario: a 39-hex-character
address (one short) with a well-formed signature. -/
theorem unlockFromSignature_validates_first_witness :
    (unlockFromSignature (fun _ => List.replicate 32 7) (fun _ _ _ => some [1])
        (fun _ _ _ => ⟨[1], [2]⟩) (List.replicate 32 8) ("2024-01-01T00:00:00Z")
        (("0x") ++ String.mk (List.replicate 130 'b'))
        ("0xaaaaaaaaaaaaaaaaaaaaaaaaaaaaaaaaaaaaaaa")
        [{ id := ("dsk"), blob := ⟨[3], [4]⟩, createdAt := ("t"), updatedAt := ("t") }]).dskAccessed =
      false ∧
    (unlockFromSignature (fun _ => List.replicate 32 7) (fun _ _ _ => some [1])
        (fun _ _ _ => ⟨[1], [2]⟩) (List.replicate 32 8) ("2024-01-01T00:00:00Z")
        (("0x") ++ String.mk (List.replicate 130 'b'))
        ("0xaaaaaaaaaaaaaaaaaaaaaaaaaaaaaaaaaaaaaaa")
        [{ id := ("dsk"), blob := ⟨[3], [4]⟩, createdAt := ("t"), updatedAt := ("t") }]).keys =
      [{ id := ("dsk"), blob := ⟨[3], [4]⟩, createdAt := ("t"), updatedAt := ("t") }] ∧
    ((unlockFromSignature (fun _ => List.replicate 32 7) (fun _ _ _ => some [1])
        (fun _ _ _ => ⟨[1], [2]⟩) (List.replicate 32 8) ("2024-01-01T00:00:00Z")
        (("0x") ++ String.mk (List.replicate 130 'b'))
        ("0xaaaaaaaaaaaaaaaaaaaaaaaaaaaaaaaaaaaaaaa")
        [{ id := ("dsk"), blob := ⟨[3], [4]⟩, createdAt := ("t"), updatedAt := ("t") }]).session =
        .error missingAddrMsg ∨
      (unlockFromSignature (fun _ => List.replicate 32 7) (fun _ _ _ => some [1])
        (fun _ _ _ => ⟨[1], [2]⟩) (List.replicate 32 8) ("2024-01-01T00:00:00Z")
        (("0x") ++ String.mk (List.replicate 130 'b'))
        ("0xaaaaaaaaaaaaaaaaaaaaaaaaaaaaaaaaaaaaaaa")
        [{ id := ("dsk"), blob := ⟨[3], [4]⟩, createdAt := ("t"), updatedAt := ("t") }]).session =
        .error invalidAddrMsg ∨
      (unlockFromSignature (fun _ => List.replicate 32 7) (fun _ _ _ => some [1])
        (fun _ _ _ => ⟨[1], [2]⟩) (List.replicate 32 8) ("2024-01-01T00:00:00Z")
        (("0x") ++ String.mk (List.replicate 130 'b'))
        ("0xaaaaaaaaaaaaaaaaaaaaaaaaaaaaaaaaaaaaaaa")
        [{ id := ("dsk"), blob := ⟨[3], [4]⟩, createdAt := ("t"), updatedAt := ("t") }]).session =
        .error missingSigMsg ∨
      (unlockFromSignature (fun _ => List.replicate 32 7) (fun _ _ _ => some [1])
        (fun _ _ _ => ⟨[1], [2]⟩) (List.replicate 32 8) ("2024-01-01T00:00:00Z")
        (("0x") ++ String.mk (List.replicate 130 'b'))
        ("0xaaaaaaaaaaaaaaaaaaaaaaaaaaaaaaaaaaaaaaa")
        [{ id := ("dsk"), blob := ⟨[3], [4]⟩, createdAt := ("t"), updatedAt := ("t") }]).session =
        .error invalidSigMsg) :=
  unlockFromSignature_validates_first (fun _ => List.replicate 32 7) (fun _ _ _ => some [1])
    (fun _ _ _ => ⟨[1], [2]⟩) (List.replicate 32 8) ("2024-01-01T00:00:00Z")
    (("0x") ++ String.mk (List.replicate 130 'b'))
    ("0xaaaaaaaaaaaaaaaaaaaaaaaaaaaaaaaaaaaaaaa")
    [{ id := ("dsk"), blob := ⟨[3], [4]⟩, createdAt := ("t"), updatedAt := ("t") }]
    (Or.inl (by decide))

/-! ## Encrypted backup export / import (`src/storage/backup/…`,
`src/core/validate/backup.ts`) -/

/-- Serialized row of the backup payload (`BackupRowJson`; its nested
`blob` object is flattened into the two hex fields). -/
structure BackupRowJson where
  id : String
  ivHex : String
  ciphertextHex : String
  createdAt : String
  updatedAt : String
deriving DecidableEq

/-- The decrypted backup payload (`BackupPayloadV1`); `db` is flattened
into `dbName`/`dbVersion` and `stores` into five row lists. -/
structure BackupPayloadJson where
  format : String
  v : Int
  exportedAt : String
  dbName : String
  dbVersion : Int
  keys : List BackupRowJson
  contacts : List BackupRowJson
  conversations : List BackupRowJson
  messages : List BackupRowJson
  settings : List BackupRowJson
deriving DecidableEq

/-- The encrypted backup artifact (`EncryptedBackupFileV1`), with the
nested `kdf`/`aead` objects flattened.  Field values are unconstrained —
the validators below decide acceptance. -/
structure BackupFileJson where
  format : String
  v : Int
  createdAt : String
  kdfName : String
  kdfHash : String
  saltHex : String
  iterations : Int
  aeadName : String
  ivHex : String
  aadLabel : String
  ciphertextHex : String
  plaintextHashHex : String
deriving DecidableEq

/-- Rows prepared for restoration, one list per store, produced by the
pre-deserialization pass of the import. -/
structure PreparedBackup where
  keys : StoreRows
  contacts : StoreRows
  conversations : StoreRows
  messages : StoreRows
  settings : StoreRows
deriving DecidableEq

/-- Passphrase error of export and import. -/
def passErrMsg : String := "Passphrase must be at least 8 characters."

/-- Error for an import mode other than `replace`. -/
def unsupportedModeMsg : String := "Unsupported import mode."

/-- Stand-in for the `ZodError` thrown by
`EncryptedBackupFileSchema.parse`; the import does not catch it, so only
the fact that it throws matters. -/
def zodRejectMsg : String := "ZodError: invalid encrypted backup file."

/-- AES-GCM authentication failure on the backup payload. -/
def integrityAuthMsg : String := "Backup integrity check failed (wrong passphrase or tampered file)."

/-- Mismatch between the recomputed and the stored plaintext hash. -/
def hashMismatchMsg : String := "Backup integrity check failed (hash mismatch)."

/-- Decrypted payload is not valid JSON. -/
def notJsonMsg : String := "Backup payload is not valid JSON."

/-- Wrapper of any prepare-pass failure for one store. -/
def prepareFailMsg (s m : String) : String :=
  ("Failed to prepare backup data for store \"") ++ s ++ ("\": ") ++ m

/-- Critical error when a `db.put` fails during the restore loop. -/
def criticalRestoreMsg (s : String) : String :=
  ("Critical error during backup restoration in store \"") ++ s ++
    ("\". Some data may have been lost. Please contact support.")

/-- Store names as strings (for error messages). -/
def storeNameStr : StoreName → String
  | .keys => "keys"
  | .contacts => "contacts"
  | .conversations => "conversations"
  | .messages => "messages"
  | .settings => "settings"

/-- Acceptance condition of the zod `EncryptedBackupFileSchema`:
literal format/version/kdf/aead fields, datetime `createdAt`, hex-shaped
salt/iv/ciphertext/hash, iteration count within 50k–2M. -/
def encryptedBackupFileZodOk (isDatetime : String → Bool) (f : BackupFileJson) : Bool :=
  (f.format == ("retrochat.encrypted-backup")) && decide (f.v = 1) &&
  isDatetime f.createdAt &&
  (f.kdfName == ("PBKDF2")) && (f.kdfHash == ("SHA-256")) && hexSchemaOk f.saltHex &&
  decide ((50000 : Int) ≤ f.iterations) && decide (f.iterations ≤ 2000000) &&
  (f.aeadName == ("AES-GCM")) && hexSchemaOk f.ivHex &&
  (f.aadLabel == ("retrochat:backup:v1")) &&
  hexSchemaOk f.ciphertextHex && hexSchemaOk f.plaintextHashHex

/-- `validateEncryptedBackupFileV1`: the assert chain on the artifact
(the `assertString`/`isRecord` shape asserts hold by type here); decodes
the four hex fields and checks their byte lengths. -/
def validateEncryptedBackupFileV1 (f : BackupFileJson) : Except String Unit := do
  if f.format ≠ ("retrochat.encrypted-backup") then throw ("Invalid backup format.")
  if f.v ≠ 1 then throw ("Unsupported backup version.")
  if f.kdfName ≠ ("PBKDF2") then throw ("Unsupported kdf.")
  if f.kdfHash ≠ ("SHA-256") then throw ("Unsupported kdf hash.")
  if f.iterations < 50000 ∨ 2000000 < f.iterations then
    throw ("Backup KDF iterations out of allowed range.")
  if f.aeadName ≠ ("AES-GCM") then throw ("Unsupported aead.")
  if f.aadLabel ≠ ("retrochat:backup:v1") then throw ("Unexpected backup AAD label.")
  let salt ← fromHex f.saltHex
  let iv ← fromHex f.ivHex
  let ct ← fromHex f.ciphertextHex
  let hash ← fromHex f.plaintextHashHex
  if salt.length ≠ 16 then throw ("Invalid backup salt length (expected 16 bytes).")
  if iv.length ≠ 12 then throw ("Invalid backup IV length (expected 12 bytes).")
  if ct.length = 0 then throw ("Invalid backup ciphertext length.")
  if hash.length ≠ 32 then throw ("Invalid backup hash length (expected 32 bytes).")

/-- Row check of `validateBackupPayloadV1`: hex-decode the blob fields
(`fromHex` may throw on odd length), require a 12-byte IV and a
nonempty ciphertext. -/
def validateBackupRow (s : String) (r : BackupRowJson) : Except String Unit := do
  let iv ← fromHex r.ivHex
  let ct ← fromHex r.ciphertextHex
  if iv.length ≠ 12 then
    throw (("Invalid IV length in ") ++ s ++ (" row (expected 12 bytes)."))
  if ct.length = 0 then throw (("Invalid ciphertext length in ") ++ s ++ (" row."))

/-- Check every row of one store, stopping at the first failure. -/
def validateBackupStore (s : String) (rows : List BackupRowJson) : Except String Unit :=
  rows.forM (validateBackupRow s)

/-- `validateBackupPayloadV1`: payload format/version checks, then every
row of every store (the `assertStoreName` and shape asserts hold by
type). -/
def validateBackupPayloadV1 (p : BackupPayloadJson) : Except String Unit := do
  if p.format ≠ ("retrochat.vault.payload") then throw ("Invalid backup payload format.")
  if p.v ≠ 1 then throw ("Unsupported backup payload version.")
  validateBackupStore ("keys") p.keys
  validateBackupStore ("contacts") p.contacts
  validateBackupStore ("conversations") p.conversations
  validateBackupStore ("messages") p.messages
  validateBackupStore ("settings") p.settings

/-- `deserializeRow`: hex-decode the blob back into a `VaultRow`. -/
def deserializeRow (r : BackupRowJson) : Except String VaultRow := do
  let iv ← fromHex r.ivHex
  let ct ← fromHex r.ciphertextHex
  pure { id := r.id, blob := ⟨iv, ct⟩, createdAt := r.createdAt, updatedAt := r.updatedAt }

/-- One row of the prepare pass: deserialize, re-check well-formedness (a
falsy — empty — id is rejected; the `!restored.blob.iv` and
`!restored.blob.ciphertext` truthiness checks are vacuous in JavaScript,
where a `Uint8Array` is always truthy, and have no model), and wrap any
failure in the per-store prepare error. -/
def prepareRow (s : String) (r : BackupRowJson) : Except String VaultRow :=
  match (do
      let restored ← deserializeRow r
      if restored.id = ("") then throw (("Invalid row id in store ") ++ s)
      pure restored : Except String VaultRow) with
  | .ok row => .ok row
  | .error m => .error (prepareFailMsg s m)

/-- Prepare every row of one store, stopping at the first failure. -/
def prepareStore (s : String) (rows : List BackupRowJson) : Except String StoreRows :=
  rows.mapM (prepareRow s)

/-- The restore loop for one store after the vault reset: put each
prepared row; a failing put (`putFails`) raises the critical error and
stops, leaving the rows already put in place. -/
def restoreRows (putFails : StoreName → String → Bool) (store : StoreName) :
    StoreRows → StoreRows → Except String Unit × StoreRows
  | [], db => (.ok (), db)
  | r :: rest, db =>
    if putFails store r.id then (.error (criticalRestoreMsg (storeNameStr store)), db)
    else restoreRows putFails store rest (dbPut db r)

/-- The write phase of the import: `resetVault()` leaves five empty
stores, then the prepared rows are restored store by store; a failure
aborts the remaining stores but keeps what was already written. -/
def restoreAllStores (putFails : StoreName → String → Bool) (prep : PreparedBackup) :
    Except String Unit × VaultState :=
  match restoreRows putFails .keys prep.keys [] with
  | (.error e, keys1) => (.error e, { emptyVault with keys := keys1 })
  | (.ok _, keys1) =>
    match restoreRows putFails .contacts prep.contacts [] with
    | (.error e, contacts1) => (.error e, { emptyVault with keys := keys1, contacts := contacts1 })
    | (.ok _, contacts1) =>
      match restoreRows putFails .conversations prep.conversations [] with
      | (.error e, conversations1) =>
        (.error e,
          { emptyVault with
              keys := keys1, contacts := contacts1, conversations := conversations1 })
      | (.ok _, conversations1) =>
        match restoreRows putFails .messages prep.messages [] with
        | (.error e, messages1) =>
          (.error e,
            { emptyVault with
                keys := keys1, contacts := contacts1, conversations := conversations1,
                messages := messages1 })
        | (.ok _, messages1) =>
          match restoreRows putFails .settings prep.settings [] with
          | (res, settings1) =>
            (res,
              { keys := keys1, contacts := contacts1, conversations := conversations1,
                  messages := messages1, settings := settings1 })

/-- The validation-and-prepare phase of `importEncryptedBackup`, exactly
the checks the source runs before it touches any state: passphrase and
mode gates, zod schema, artifact validation, hex decoding, AEAD
decryption (`decryptBackup` folds `deriveBackupKey` over passphrase,
salt and iterations with `decryptBackupPayload`; `none` is the
authentication failure), plaintext-hash comparison, JSON parse
(`parsePayload`), payload validation, and the full per-row
deserialization of every store. -/
def importPrepare (sha256 : Bytes → Bytes)
    (decryptBackup : String → Bytes → Int → Bytes → Bytes → Option Bytes)
    (parsePayload : Bytes → Option BackupPayloadJson) (isDatetime : String → Bool)
    (passphrase : String) (file : BackupFileJson) (mode : String) :
    Except String PreparedBackup :=
  if passphrase = ("") ∨ (jsTrim passphrase).length < 8 then .error passErrMsg
  else if mode ≠ ("replace") then .error unsupportedModeMsg
  else if encryptedBackupFileZodOk isDatetime file = false then .error zodRejectMsg
  else
    match validateEncryptedBackupFileV1 file with
    | .error e => .error e
    | .ok _ =>
      match fromHex file.saltHex with
      | .error e => .error e
      | .ok salt =>
        match fromHex file.ivHex with
        | .error e => .error e
        | .ok iv =>
          match fromHex file.ciphertextHex with
          | .error e => .error e
          | .ok ciphertext =>
            match decryptBackup passphrase salt file.iterations iv ciphertext with
            | none => .error integrityAuthMsg
            | some plaintextBytes =>
              if toHex (sha256 plaintextBytes) ≠ file.plaintextHashHex then
                .error hashMismatchMsg
              else
                match parsePayload plaintextBytes with
                | none => .error notJsonMsg
                | some payload =>
                  match validateBackupPayloadV1 payload with
                  | .error e => .error e
                  | .ok _ =>
                    match prepareStore ("keys") payload.keys with
                    | .error e => .error e
                    | .ok keys =>
                      match prepareStore ("contacts") payload.contacts with
                      | .error e => .error e
                      | .ok contacts =>
                        match prepareStore ("conversations") payload.conversations with
                        | .error e => .error e
                        | .ok conversations =>
                          match prepareStore ("messages") payload.messages with
                          | .error e => .error e
                          | .ok messages =>
                            match prepareStore ("settings") payload.settings with
                            | .error e => .error e
                            | .ok settings =>
                              .ok ⟨keys, contacts, conversations, messages, settings⟩

/-- `importEncryptedBackup`, state threaded explicitly: every check of
the validation phase exits with the untouched prior vault; only after
all of them pass is the vault reset and rewritten
(`restoreAllStores`). -/
def importEncryptedBackup (sha256 : Bytes → Bytes)
    (decryptBackup : String → Bytes → Int → Bytes → Bytes → Option Bytes)
    (parsePayload : Bytes → Option BackupPayloadJson) (isDatetime : String → Bool)
    (putFails : StoreName → String → Bool) (passphrase : String) (file : BackupFileJson)
    (mode : String) (vault : VaultState) : Except String Unit × VaultState :=
  if passphrase = ("") ∨ (jsTrim passphrase).length < 8 then (.error passErrMsg, vault)
  else if mode ≠ ("replace") then (.error unsupportedModeMsg, vault)
  else if encryptedBackupFileZodOk isDatetime file = false then (.error zodRejectMsg, vault)
  else
    match validateEncryptedBackupFileV1 file with
    | .error e => (.error e, vault)
    | .ok _ =>
      match fromHex file.saltHex with
      | .error e => (.error e, vault)
      | .ok salt =>
        match fromHex file.ivHex with
        | .error e => (.error e, vault)
        | .ok iv =>
          match fromHex file.ciphertextHex with
          | .error e => (.error e, vault)
          | .ok ciphertext =>
            match decryptBackup passphrase salt file.iterations iv ciphertext with
            | none => (.error integrityAuthMsg, vault)
            | some plaintextBytes =>
              if toHex (sha256 plaintextBytes) ≠ file.plaintextHashHex then
                (.error hashMismatchMsg, vault)
              else
                match parsePayload plaintextBytes with
                | none => (.error notJsonMsg, vault)
                | some payload =>
                  match validateBackupPayloadV1 payload with
                  | .error e => (.error e, vault)
                  | .ok _ =>
                    match prepareStore ("keys") payload.keys with
                    | .error e => (.error e, vault)
                    | .ok keys =>
                      match prepareStore ("contacts") payload.contacts with
                      | .error e => (.error e, vault)
                      | .ok contacts =>
                        match prepareStore ("conversations") payload.conversations with
                        | .error e => (.error e, vault)
                        | .ok conversations =>
                          match prepareStore ("messages") payload.messages with
                          | .error e => (.error e, vault)
                          | .ok messages =>
                            match prepareStore ("settings") payload.settings with
                            | .error e => (.error e, vault)
                            | .ok settings =>
                              restoreAllStores putFails
                                ⟨keys, contacts, conversations, messages, settings⟩

/-- `serializeRow`: hex-encode a vault row for the backup payload. -/
def serializeRow (r : VaultRow) : BackupRowJson :=
  { id := r.id, ivHex := toHex r.blob.iv, ciphertextHex := toHex r.blob.ciphertext,
    createdAt := r.createdAt, updatedAt := r.updatedAt }

/-- `exportEncryptedBackup`: gate on the passphrase, serialize all five
stores, hash the encoded plaintext (`encodePayload` is
`JSON.stringify` + UTF-8), PBKDF2-derive a key and AES-GCM-encrypt
(folded into `encryptBackup`; `salt` and `iv` are the fresh random
bytes), and emit the self-describing artifact. -/
def exportEncryptedBackup (sha256 : Bytes → Bytes)
    (encodePayload : BackupPayloadJson → Bytes)
    (encryptBackup : String → Bytes → Bytes → Bytes → Bytes)
    (salt iv : Bytes) (clock : String) (passphrase : String) (vault : VaultState) :
    Except String BackupFileJson :=
  if passphrase = ("") ∨ (jsTrim passphrase).length < 8 then .error passErrMsg
  else
    let payload : BackupPayloadJson :=
      { format := ("retrochat.vault.payload"), v := 1, exportedAt := clock,
        dbName := ("retrochat-vault"), dbVersion := 3,
        keys := vault.keys.map serializeRow, contacts := vault.contacts.map serializeRow,
        conversations := vault.conversations.map serializeRow,
        messages := vault.messages.map serializeRow,
        settings := vault.settings.map serializeRow }
    let plaintext := encodePayload payload
    let plaintextHashHex := toHex (sha256 plaintext)
    let ciphertext := encryptBackup passphrase salt iv plaintext
    .ok { format := ("retrochat.encrypted-backup"), v := 1, createdAt := clock,
          kdfName := ("PBKDF2"), kdfHash := ("SHA-256"), saltHex := toHex salt,
          iterations := 200000, aeadName := ("AES-GCM"), ivHex := toHex iv,
          aadLabel := ("retrochat:backup:v1"), ciphertextHex := toHex ciphertext,
          plaintextHashHex := plaintextHashHex }

/-- Claim C3: `importEncryptedBackup` mutates no existing vault state
before every check passes.  The import equals: run the pure validation
pipeline (`importPrepare` — passphrase/mode gates, zod schema
validation, artifact validation, AEAD decryption, recomputed SHA-256
plaintext-hash comparison, JSON parse, payload validation, and the
structural deserialization of every row of every store); if any of these
fails, the result is that error paired with the vault exactly as it was;
only when all rows of all stores have been validated is the vault reset
and rewritten from the prepared rows (`restoreAllStores`, which starts
from the freshly reset empty stores). -/
theorem importEncryptedBackup_checks_before_mutation (sha256 : Bytes → Bytes)
    (decryptBackup : String → Bytes → Int → Bytes → Bytes → Option Bytes)
    (parsePayload : Bytes → Option BackupPayloadJson) (isDatetime : String → Bool)
    (putFails : StoreName → String → Bool) (passphrase : String) (file : BackupFileJson)
    (mode : String) (vault : VaultState) :
    importEncryptedBackup sha256 decryptBackup parsePayload isDatetime putFails passphrase
        file mode vault =
      match importPrepare sha256 decryptBackup parsePayload isDatetime passphrase file
          mode with
      | .error e => (.error e, vault)
      | .ok prep => restoreAllStores putFails prep := by
  unfold importEncryptedBackup importPrepare
  by_cases h1 : passphrase = ("") ∨ (jsTrim passphrase).length < 8
  · rw [if_pos h1, if_pos h1]
  · rw [if_neg h1, if_neg h1]
    by_cases h2 : mode ≠ ("replace")
    · rw [if_pos h2, if_pos h2]
    · rw [if_neg h2, if_neg h2]
      by_cases h3 : encryptedBackupFileZodOk isDatetime file = false
      · rw [if_pos h3, if_pos h3]
      · rw [if_neg h3, if_neg h3]
        rcases validateEncryptedBackupFileV1 file with e | u
        · rfl
        · simp only []
          rcases fromHex file.saltHex with e | salt
          · rfl
          · simp only []
            rcases fromHex file.ivHex with e | iv
            · rfl
            · simp only []
              rcases fromHex file.ciphertextHex with e | ciphertext
              · rfl
              · simp only []
                rcases decryptBackup passphrase salt file.iterations iv ciphertext with
                  _ | plaintextBytes
                · rfl
                · simp only []
                  by_cases h4 : toHex (sha256 plaintextBytes) ≠ file.plaintextHashHex
                  · rw [if_pos h4, if_pos h4]
                  · rw [if_neg h4, if_neg h4]
                    rcases parsePayload plaintextBytes with _ | payload
                    · rfl
                    · simp only []
                      rcases validateBackupPayloadV1 payload with e | u2
                      · rfl
                      · simp only []
                        rcases prepareStore ("keys") payload.keys with e | pkeys
                        · rfl
                        · simp only []
                          rcases prepareStore ("contacts") payload.contacts with e | pcontacts
                          · rfl
                          · simp only []
                            rcases prepareStore ("conversations") payload.conversations with
                              e | pconversations
                            · rfl
                            · simp only []
                              rcases prepareStore ("messages") payload.messages with
                                e | pmessages
                              · rfl
                              · simp only []
                                rcases prepareStore ("settings") payload.settings with
                                  e | psettings
                                · rfl
                                · rfl

/-- Counterexample to claim C9 as stated: the passphrase of eight spaces
has length 8 — so by the claim the length check should pass — yet
export rejects it, because the source gates on
`passphrase.trim().length < 8`. -/
theorem exportEncryptedBackup_len8_counterexample :
    (("        ") : String).length = 8 ∧
      exportEncryptedBackup (fun bs => bs) (fun _ => []) (fun _ _ _ _ => []) [] [] ("t")
        ("        ") emptyVault = .error passErrMsg :=
  ⟨by decide, rfl⟩

/-- Claim C9 (amended): export rejects a passphrase if and only if its
whitespace-trimmed length is less than 8.  On rejection the result is
the same passphrase error for every vault state (the binder `vault` is
universally quantified here), i.e. the gate fires before any store is
read; with a trimmed length of at least 8 the gate passes and export
produces an artifact. -/
theorem exportEncryptedBackup_trim_gate (sha256 : Bytes → Bytes)
    (encodePayload : BackupPayloadJson → Bytes)
    (encryptBackup : String → Bytes → Bytes → Bytes → Bytes)
    (salt iv : Bytes) (clock : String) (passphrase : String) (vault : VaultState) :
    ((jsTrim passphrase).length < 8 →
      exportEncryptedBackup sha256 encodePayload encryptBackup salt iv clock passphrase
        vault = .error passErrMsg) ∧
    (8 ≤ (jsTrim passphrase).length →
      ∃ f, exportEncryptedBackup sha256 encodePayload encryptBackup salt iv clock
        passphrase vault = .ok f) := by
  constructor
  · intro h
    unfold exportEncryptedBackup
    rw [if_pos (Or.inr h)]
  · intro h
    have hne : ¬(passphrase = ("") ∨ (jsTrim passphrase).length < 8) := by
      rintro (rfl | hlt)
      · exact absurd h (by decide)
      · omega
    unfold exportEncryptedBackup
    rw [if_neg hne]
    exact ⟨_, rfl⟩

/-- Witness for the amended claim C9, at a 5-character passphrase (gate
fires) and a 10-character passphrase (gate passes). -/
theorem exportEncryptedBackup_trim_gate_witness :
    ((jsTrim ("short")).length < 8 ∧
      exportEncryptedBackup (fun bs => bs) (fun _ => []) (fun _ _ _ _ => []) [] [] ("t")
        ("short") emptyVault = .error passErrMsg) ∧
    (8 ≤ (jsTrim ("passphrase")).length ∧
      ∃ f, exportEncryptedBackup (fun bs => bs) (fun _ => []) (fun _ _ _ _ => []) [] [] ("t")
        ("passphrase") emptyVault = .ok f) :=
  ⟨⟨by decide, (exportEncryptedBackup_trim_gate (fun bs => bs) (fun _ => [])
      (fun _ _ _ _ => []) [] [] ("t") ("short") emptyVault).1 (by decide)⟩,
    ⟨by decide, (exportEncryptedBackup_trim_gate (fun bs => bs) (fun _ => [])
      (fun _ _ _ _ => []) [] [] ("t") ("passphrase") emptyVault).2 (by decide)⟩⟩

end Retrochat
